import Mathlib

/-!
Verification development for the `matrixcompare` repository.

The Rust sources are shallowly embedded in Lean:
pure generic functions become Lean functions parameterised by the scalar
operations the Rust trait bounds provide, machine integers become `Nat`/`Int`,
fallible computations return `Except`, and operations that may fail to return
(assertion failures, out-of-range slice indexing, `unimplemented` arms) are
modelled with an outer `Option` layer in which `none` marks a non-return.

The dense-dense comparison strategy, the comparator suite and the failure
data types are translated from `src/matrix_comparison.rs`,
`src/comparators.rs` and `src/comparison_failure.rs`.  The sparse comparison
strategies are absent from the source snapshot (the dispatch in
`matrix_comparison.rs` leaves every non-dense pair unimplemented, while the
failure types and the whole sparse test-suite reference them); those parts
are modelled from the specification, sections 4.2 and 4.3, and are marked
as such in their doc comments.
-/

set_option autoImplicit false

namespace Matrixcompare

/-- Result of an ULP comparison, mirroring `enum UlpComparisonResult` used by
`src/comparators.rs` (the `ulp` module itself is not part of the snapshot):
exact match, a difference measured in ULP units, incompatible signs, or NaN. -/
inductive UlpComparisonResult where
  | ExactMatch
  | Difference (diff : Nat)
  | IncompatibleSigns
  | Nan
  deriving DecidableEq, Repr

/-- Error of the exact comparator, mirroring `struct ExactError`. -/
structure ExactError where
  deriving DecidableEq, Repr

/-- Error of the absolute comparator, mirroring `struct AbsoluteError<T>(pub T)`. -/
structure AbsoluteError (T : Type) where
  error : T
  deriving DecidableEq, Repr

/-- Error of the ULP and float comparators, mirroring
`struct UlpError(pub UlpComparisonResult)`. -/
structure UlpError where
  result : UlpComparisonResult
  deriving DecidableEq, Repr

/-- Scalar operations corresponding to the Rust trait bounds used by the
comparators (`PartialEq`, `PartialOrd`, `Num`, `FloatCore`): equality and
order tests are boolean valued because `PartialOrd` may leave values
unordered (IEEE NaN), and `epsilon` is the machine epsilon of the type. -/
structure ScalarOps (T : Type) where
  beq : T → T → Bool
  lt : T → T → Bool
  le : T → T → Bool
  sub : T → T → T
  zero : T
  one : T
  add : T → T → T
  mul : T → T → T
  epsilon : T

/-- Compare of `ExactElementwiseComparator`: `if a == b { Ok(()) } else { Err(ExactError) }`. -/
def exactCompare {T : Type} (beq : T → T → Bool) (a b : T) : Except ExactError Unit :=
  if beq a b then .ok () else .error {}

/-- Description string of the exact comparator. -/
def exactDescription : String := "exact equality x == y."

/-- The `abs` comparator, mirroring `struct AbsoluteElementwiseComparator<T> { pub tol: T }`. -/
structure AbsoluteElementwiseComparator (T : Type) where
  tol : T
  deriving DecidableEq, Repr

/-- Compare of `AbsoluteElementwiseComparator`.  The function first runs
`assert!(self.tol >= T::zero())`; a failing assertion does not return, which
the embedding renders as `none`.  Otherwise: equal operands succeed, and the
distance is computed as `a - b` or `b - a` depending on which operand is
larger, then tested with `distance <= self.tol`. -/
def AbsoluteElementwiseComparator.compare {T : Type} (ops : ScalarOps T)
    (c : AbsoluteElementwiseComparator T) (a b : T) :
    Option (Except (AbsoluteError T) Unit) :=
  if ops.le ops.zero c.tol then
    some (if ops.beq a b then .ok ()
      else
        let distance := if ops.lt b a then ops.sub a b else ops.sub b a
        if ops.le distance c.tol then .ok () else .error { error := distance })
  else
    none

/-- The `ulp` comparator, mirroring `struct UlpElementwiseComparator { pub tol: u64 }`. -/
structure UlpElementwiseComparator where
  tol : Nat
  deriving DecidableEq, Repr

/-- Compare of `UlpElementwiseComparator`: delegates to `Ulp::ulp_diff` (passed
here as the function argument `ulpDiff`, since the `ulp` module is outside the
snapshot) and accepts an exact match or a difference of at most `tol` ULP. -/
def UlpElementwiseComparator.compare {T : Type}
    (ulpDiff : T → T → UlpComparisonResult) (c : UlpElementwiseComparator)
    (a b : T) : Except UlpError Unit :=
  match ulpDiff a b with
  | .ExactMatch => .ok ()
  | .Difference d => if d ≤ c.tol then .ok () else .error { result := .Difference d }
  | r => .error { result := r }

/-- The `float` comparator, mirroring
`struct FloatElementwiseComparator<T> { abs: AbsoluteElementwiseComparator<T>, ulp: UlpElementwiseComparator }`. -/
structure FloatElementwiseComparator (T : Type) where
  abs : AbsoluteElementwiseComparator T
  ulp : UlpElementwiseComparator
  deriving DecidableEq, Repr

/-- Default float comparator: absolute tolerance `(1+1+1+1) * T::epsilon()`
and ULP tolerance `4`, mirroring `FloatElementwiseComparator::default`. -/
def FloatElementwiseComparator.default {T : Type} (ops : ScalarOps T) :
    FloatElementwiseComparator T :=
  { abs := { tol := ops.mul (ops.add (ops.add (ops.add ops.one ops.one) ops.one) ops.one) ops.epsilon }
    ulp := { tol := 4 } }

/-- Builder replacing the absolute-stage tolerance, mirroring the source
method `eps` (the name is qualified here to avoid clashing with the field). -/
def FloatElementwiseComparator.withEps {T : Type} (c : FloatElementwiseComparator T)
    (eps : T) : FloatElementwiseComparator T :=
  { abs := { tol := eps }, ulp := c.ulp }

/-- Builder replacing the ULP-stage tolerance, mirroring the source method
`ulp` (the name is qualified here to avoid clashing with the field). -/
def FloatElementwiseComparator.withUlp {T : Type} (c : FloatElementwiseComparator T)
    (maxUlp : Nat) : FloatElementwiseComparator T :=
  { abs := c.abs, ulp := { tol := maxUlp } }

/-- Compare of `FloatElementwiseComparator`: if the absolute stage fails, fall
back to the ULP stage, otherwise succeed.  A non-return of the absolute stage
(its tolerance assertion) propagates. -/
def FloatElementwiseComparator.compare {T : Type} (ops : ScalarOps T)
    (ulpDiff : T → T → UlpComparisonResult) (c : FloatElementwiseComparator T)
    (a b : T) : Option (Except UlpError Unit) :=
  match c.abs.compare ops a b with
  | none => none
  | some (.error _) => some (c.ulp.compare ulpDiff a b)
  | some (.ok _) => some (.ok ())

/-- Scalar operations of `i64` (overflow-free fragment): decidable equality
and order, exact subtraction.  The `epsilon` field is unused for integers and
set to zero.  This instance is used to ground the generic comparator theorems
at a concrete type. -/
def intOps : ScalarOps Int :=
  { beq := fun a b => decide (a = b)
    lt := fun a b => decide (a < b)
    le := fun a b => decide (a ≤ b)
    sub := fun a b => a - b
    zero := 0
    one := 1
    add := fun a b => a + b
    mul := fun a b => a * b
    epsilon := 0 }

/-- ULP metric on integers: adjacent integers are adjacent representable
values, so the number of representable values between `a` and `b` is their
absolute difference.  Used to ground the generic ULP theorems. -/
def intUlpDiff (a b : Int) : UlpComparisonResult :=
  if a = b then .ExactMatch else .Difference (a - b).natAbs

/-- Scalar operations of an unsigned type (`u64`-style): subtraction is
truncated, so `a - b` is only meaningful when `a >= b`, which is exactly why
the absolute comparator computes `max - min` rather than a signed difference. -/
def natOps : ScalarOps Nat :=
  { beq := fun a b => decide (a = b)
    lt := fun a b => decide (a < b)
    le := fun a b => decide (a ≤ b)
    sub := fun a b => a - b
    zero := 0
    one := 1
    add := fun a b => a + b
    mul := fun a b => a * b
    epsilon := 0 }

/-- Modelled from the spec: an IEEE-754 scalar as consumed by the exact
comparator.  Primitive float semantics are not part of the snapshot; the
model keeps exactly what the exact comparator observes: a NaN value, finite
values indexed by an integer, and an equality operator that is irreflexive at
NaN (the comparator test-suite asserts `compare(NAN, 5.0) = Err(ExactError)`). -/
inductive FloatValue where
  | nan
  | finite (index : Int)
  deriving DecidableEq, Repr

/-- Modelled from the spec: the IEEE equality operator on `FloatValue`; NaN
compares unequal to everything, including itself. -/
def floatBeq : FloatValue → FloatValue → Bool
  | .nan, _ => false
  | _, .nan => false
  | .finite x, .finite y => decide (x = y)

/-- Coordinate of a matrix entry, mirroring `pub type Coordinate = (usize, usize)`. -/
abbrev Coordinate : Type := Nat × Nat

/-- Side-tagged coordinate, mirroring `enum Entry { Left(Coordinate), Right(Coordinate) }`. -/
inductive Entry where
  | Left (coord : Coordinate)
  | Right (coord : Coordinate)
  deriving DecidableEq, Repr

/-- Swap of the side tag, mirroring `Entry::reverse`. -/
def Entry.reverse : Entry → Entry
  | .Left coord => .Right coord
  | .Right coord => .Left coord

/-- Shape mismatch payload, mirroring `struct DimensionMismatch { dim_x, dim_y }`. -/
structure DimensionMismatch where
  dim_x : Nat × Nat
  dim_y : Nat × Nat
  deriving DecidableEq, Repr

/-- Swap of the two shapes, mirroring `DimensionMismatch::reverse`. -/
def DimensionMismatch.reverse (d : DimensionMismatch) : DimensionMismatch :=
  { dim_x := d.dim_y, dim_y := d.dim_x }

/-- Mismatch of a single element pair, mirroring
`struct MatrixElementComparisonFailure<T, E> { x, y, error, row, col }`. -/
structure MatrixElementComparisonFailure (T E : Type) where
  x : T
  y : T
  error : E
  row : Nat
  col : Nat
  deriving DecidableEq, Repr

/-- Swap of the two element values, mirroring
`MatrixElementComparisonFailure::reverse`. -/
def MatrixElementComparisonFailure.reverse {T E : Type}
    (f : MatrixElementComparisonFailure T E) : MatrixElementComparisonFailure T E :=
  { x := f.y, y := f.x, error := f.error, row := f.row, col := f.col }

/-- Elementwise mismatch payload, mirroring
`struct ElementsMismatch<T, Error> { comparator_description, mismatches }`. -/
structure ElementsMismatch (T E : Type) where
  comparator_description : String
  mismatches : List (MatrixElementComparisonFailure T E)
  deriving DecidableEq, Repr

/-- Reversal of every contained element failure, mirroring `ElementsMismatch::reverse`. -/
def ElementsMismatch.reverse {T E : Type} (m : ElementsMismatch T E) : ElementsMismatch T E :=
  { comparator_description := m.comparator_description
    mismatches := m.mismatches.map MatrixElementComparisonFailure.reverse }

/-- Comparison failure tagged union, mirroring `enum MatrixComparisonFailure<T, Error>`. -/
inductive MatrixComparisonFailure (T E : Type) where
  | MismatchedDimensions (d : DimensionMismatch)
  | MismatchedElements (m : ElementsMismatch T E)
  | SparseEntryOutOfBounds (entry : Entry)
  | DuplicateSparseEntry (entry : Entry)
  deriving DecidableEq, Repr

/-- Transcription of `MatrixComparisonFailure::reverse` exactly as written in
`src/comparison_failure.rs`, arm by arm.  Note that the source maps the
`DuplicateSparseEntry` variant to `SparseEntryOutOfBounds`. -/
def MatrixComparisonFailure.reverse {T E : Type} :
    MatrixComparisonFailure T E → MatrixComparisonFailure T E
  | .MismatchedDimensions d => .MismatchedDimensions d.reverse
  | .MismatchedElements m => .MismatchedElements m.reverse
  | .SparseEntryOutOfBounds entry => .SparseEntryOutOfBounds entry.reverse
  | .DuplicateSparseEntry entry => .SparseEntryOutOfBounds entry.reverse

/-- Dense row-major matrix as exposed through `DenseAccess`, with the mock
implementation `MockDenseMatrix` as the concrete representative: `rows`,
`cols` and a row-major element vector. -/
structure DenseMatrix (T : Type) where
  rows : Nat
  cols : Nat
  data : List T
  deriving DecidableEq, Repr

/-- Element fetch of `DenseAccess::fetch_single`: index `row * cols + col`
into the row-major data; an out-of-range index does not return in Rust,
rendered here as `none`. -/
def DenseMatrix.fetch_single {T : Type} (m : DenseMatrix T) (row col : Nat) : Option T :=
  m.data.get? (row * m.cols + col)

/-- Well-formedness of a dense matrix: the data vector has exactly
`rows * cols` elements (the `MockDenseMatrix::from_row_major` constructor
asserts this). -/
def DenseMatrix.wf {T : Type} (m : DenseMatrix T) : Prop :=
  m.data.length = m.rows * m.cols

/-- Sparse coordinate-list matrix as exposed through `SparseAccess`, with
`MockSparseMatrix` as the concrete representative: a declared shape and a
triplet list. -/
structure SparseMatrix (T : Type) where
  rows : Nat
  cols : Nat
  triplets : List (Nat × Nat × T)
  deriving DecidableEq, Repr

/-- An operand of the comparison engine: the access-mode dispatch of
`enum Access { Dense(..), Sparse(..) }`. -/
inductive MatrixOperand (T : Type) where
  | dense (m : DenseMatrix T)
  | sparse (s : SparseMatrix T)
  deriving DecidableEq, Repr

/-- Row count of an operand, mirroring `Matrix::rows`. -/
def MatrixOperand.rows {T : Type} : MatrixOperand T → Nat
  | .dense m => m.rows
  | .sparse s => s.rows

/-- Column count of an operand, mirroring `Matrix::cols`. -/
def MatrixOperand.cols {T : Type} : MatrixOperand T → Nat
  | .dense m => m.cols
  | .sparse s => s.cols

/-- Well-formedness of an operand: dense operands carry a full data vector;
sparse operands impose nothing (the engine validates their triplets itself). -/
def MatrixOperand.wf {T : Type} : MatrixOperand T → Prop
  | .dense m => m.wf
  | .sparse _ => True

/-- Row-major enumeration of all coordinates of an `r` by `c` shape: the
double loop `for i in 0..rows { for j in 0..cols { .. } }`. -/
def rowMajorPairs (r c : Nat) : List (Nat × Nat) :=
  (List.range r).flatMap (fun i => (List.range c).map (fun j => (i, j)))

/-- Body of the dense-dense double loop of `fetch_dense_dense_mismatches`:
fetch both elements at each coordinate, apply the comparator, and collect a
`MatrixElementComparisonFailure` for every failing coordinate, in visitation
order.  A fetch that does not return makes the whole computation not return. -/
def collectDenseDense {T E : Type} (cmp : T → T → Except E Unit)
    (x y : DenseMatrix T) : List (Nat × Nat) →
    Option (List (MatrixElementComparisonFailure T E))
  | [] => some []
  | (i, j) :: rest =>
    match x.fetch_single i j, y.fetch_single i j, collectDenseDense cmp x y rest with
    | some a, some b, some tail =>
      match cmp a b with
      | .ok _ => some tail
      | .error e => some ({ x := a, y := b, error := e, row := i, col := j } :: tail)
    | _, _, _ => none

/-- Transcription of `fetch_dense_dense_mismatches`: the function asserts
equal shapes and then runs the row-major double loop. -/
def fetch_dense_dense_mismatches {T E : Type} (cmp : T → T → Except E Unit)
    (x y : DenseMatrix T) : Option (List (MatrixElementComparisonFailure T E)) :=
  if x.rows = y.rows ∧ x.cols = y.cols then
    collectDenseDense cmp x y (rowMajorPairs x.rows x.cols)
  else
    none

/-- First structural violation found among the triplets of a sparse side. -/
inductive SparseViolation where
  | outOfBounds (coord : Coordinate)
  | duplicate (coord : Coordinate)
  deriving DecidableEq, Repr

/-- Modelled from the spec, section 4.2 (the sparse triplet validator is not
part of the snapshot): iterate the triplets in source order; for each, first
check bounds (`row >= rows or col >= cols` gives an out-of-bounds error),
then attempt insertion into the coordinate map, reporting a duplicate when
the coordinate is already present; the first violation wins. -/
def buildSparseMap {T : Type} (rows cols : Nat) :
    List (Nat × Nat × T) → List (Coordinate × T) →
    Except SparseViolation (List (Coordinate × T))
  | [], acc => .ok acc
  | (i, j, v) :: rest, acc =>
    if rows ≤ i ∨ cols ≤ j then .error (.outOfBounds (i, j))
    else if acc.any (fun e => decide (e.1 = (i, j))) then .error (.duplicate (i, j))
    else buildSparseMap rows cols rest (acc ++ [((i, j), v)])

/-- Modelled from the spec, section 4.2: validate a sparse operand against
its own declared shape, starting from an empty coordinate map. -/
def validateSparse {T : Type} (s : SparseMatrix T) :
    Except SparseViolation (List (Coordinate × T)) :=
  buildSparseMap s.rows s.cols s.triplets []

/-- Lookup in the coordinate map built by the validator. -/
def mapLookup {T : Type} (m : List (Coordinate × T)) (c : Coordinate) : Option T :=
  (m.find? (fun e => decide (e.1 = c))).map (fun e => e.2)

/-- Tag a validator violation with the side that produced it, as the engine
does when propagating `SparseEntryOutOfBounds` and `DuplicateSparseEntry`. -/
def tagViolation {T E : Type} (side : Coordinate → Entry) :
    SparseViolation → MatrixComparisonFailure T E
  | .outOfBounds coord => .SparseEntryOutOfBounds (side coord)
  | .duplicate coord => .DuplicateSparseEntry (side coord)

/-- Modelled from the spec, section 4.3, dense-sparse strategy: iterate the
dense shape row-major; the left value is fetched from the dense side and the
right value is looked up in the sparse map, defaulting to zero. -/
def collectDenseSparse {T E : Type} (cmp : T → T → Except E Unit) (zero : T)
    (x : DenseMatrix T) (m : List (Coordinate × T)) : List (Nat × Nat) →
    Option (List (MatrixElementComparisonFailure T E))
  | [] => some []
  | (i, j) :: rest =>
    match x.fetch_single i j, collectDenseSparse cmp zero x m rest with
    | some a, some tail =>
      let b := (mapLookup m (i, j)).getD zero
      match cmp a b with
      | .ok _ => some tail
      | .error e => some ({ x := a, y := b, error := e, row := i, col := j } :: tail)
    | _, _ => none

/-- Modelled from the spec, section 4.3, sparse-dense strategy: the mirror of
the dense-sparse strategy with the sparse map on the left side. -/
def collectSparseDense {T E : Type} (cmp : T → T → Except E Unit) (zero : T)
    (m : List (Coordinate × T)) (y : DenseMatrix T) : List (Nat × Nat) →
    Option (List (MatrixElementComparisonFailure T E))
  | [] => some []
  | (i, j) :: rest =>
    match y.fetch_single i j, collectSparseDense cmp zero m y rest with
    | some b, some tail =>
      let a := (mapLookup m (i, j)).getD zero
      match cmp a b with
      | .ok _ => some tail
      | .error e => some ({ x := a, y := b, error := e, row := i, col := j } :: tail)
    | _, _ => none

/-- Insertion step of the deterministic sort of the sparse-sparse mismatch
list. -/
def insertByLe {A : Type} (le : A → A → Bool) (a : A) : List A → List A
  | [] => [a]
  | b :: bs => if le a b then a :: b :: bs else b :: insertByLe le a bs

/-- Insertion sort used to model the final `(row, col)` ascending sort of the
sparse-sparse strategy (the spec requires the sorted order, not a specific
algorithm). -/
def sortByLe {A : Type} (le : A → A → Bool) : List A → List A
  | [] => []
  | a :: as => insertByLe le a (sortByLe le as)

/-- Lexicographic `(row, col)` order on element failures. -/
def rowColLe {T E : Type} (p q : MatrixElementComparisonFailure T E) : Bool :=
  decide (p.row < q.row) || (decide (p.row = q.row) && decide (p.col ≤ q.col))

/-- Union of the key sets of two coordinate maps. -/
def unionKeys {T : Type} (m1 m2 : List (Coordinate × T)) : List Coordinate :=
  m1.map (fun e => e.1) ++
    (m2.map (fun e => e.1)).filter (fun c => !(m1.any (fun e => decide (e.1 = c))))

/-- Modelled from the spec, section 4.3, sparse-sparse strategy: compare each
coordinate present in either map once, defaulting the absent side to zero,
then sort the mismatch list by `(row, col)` ascending. -/
def sparseSparseMismatches {T E : Type} (cmp : T → T → Except E Unit) (zero : T)
    (m1 m2 : List (Coordinate × T)) : List (MatrixElementComparisonFailure T E) :=
  sortByLe rowColLe ((unionKeys m1 m2).filterMap (fun c =>
    let a := (mapLookup m1 c).getD zero
    let b := (mapLookup m2 c).getD zero
    match cmp a b with
    | .ok _ => none
    | .error e => some { x := a, y := b, error := e, row := c.1, col := c.2 }))

/-- Wrap a collected mismatch list into the engine result: zero mismatches is
success, otherwise `MismatchedElements` with the comparator description and
the ordered list. -/
def wrapMismatches {T E : Type} (descr : String)
    (ms : List (MatrixElementComparisonFailure T E)) :
    Except (MatrixComparisonFailure T E) Unit :=
  if ms.isEmpty then .ok () else .error (.MismatchedElements { comparator_description := descr, mismatches := ms })

/-- The comparison engine `compare_matrices`.  The shape test and the
dense-dense strategy are transcribed from `src/matrix_comparison.rs`; the
three sparse strategies, absent from the snapshot, are modelled from the
spec, section 4.3: validate sparse sides (left before right), propagate the
first violation tagged with its side, and otherwise run the appropriate
elementwise strategy.  A non-return of a strategy propagates as `none`. -/
def compare_matrices {T E : Type} (cmp : T → T → Except E Unit) (descr : String)
    (zero : T) (x y : MatrixOperand T) :
    Option (Except (MatrixComparisonFailure T E) Unit) :=
  if x.rows = y.rows ∧ x.cols = y.cols then
    match x, y with
    | .dense dx, .dense dy =>
      (fetch_dense_dense_mismatches cmp dx dy).map (wrapMismatches descr)
    | .dense dx, .sparse sy =>
      match validateSparse sy with
      | .error v => some (.error (tagViolation Entry.Right v))
      | .ok m =>
        (collectDenseSparse cmp zero dx m (rowMajorPairs dx.rows dx.cols)).map
          (wrapMismatches descr)
    | .sparse sx, .dense dy =>
      match validateSparse sx with
      | .error v => some (.error (tagViolation Entry.Left v))
      | .ok m =>
        (collectSparseDense cmp zero m dy (rowMajorPairs dy.rows dy.cols)).map
          (wrapMismatches descr)
    | .sparse sx, .sparse sy =>
      match validateSparse sx with
      | .error v => some (.error (tagViolation Entry.Left v))
      | .ok m1 =>
        match validateSparse sy with
        | .error v => some (.error (tagViolation Entry.Right v))
        | .ok m2 => some (wrapMismatches descr (sparseSparseMismatches cmp zero m1 m2))
  else
    some (.error (.MismatchedDimensions { dim_x := (x.rows, x.cols), dim_y := (y.rows, y.cols) }))

/-- Entry produced at one coordinate by the declarative dense-dense mismatch
description: the element failure when the comparator rejects the fetched
pair, nothing otherwise. -/
def denseSpecFun {T E : Type} (cmp : T → T → Except E Unit)
    (x y : DenseMatrix T) (p : Nat × Nat) :
    Option (MatrixElementComparisonFailure T E) :=
  match x.fetch_single p.1 p.2, y.fetch_single p.1 p.2 with
  | some a, some b =>
    match cmp a b with
    | .ok _ => none
    | .error e => some { x := a, y := b, error := e, row := p.1, col := p.2 }
  | _, _ => none

/-- Declarative row-major mismatch list of the dense-dense strategy, written
from the words of the spec: one entry per failing coordinate, in row-major
visitation order, carrying both values, the comparator error and the
coordinate.  The engine is proved to produce exactly this list. -/
def denseMismatchesSpec {T E : Type} (cmp : T → T → Except E Unit)
    (x y : DenseMatrix T) : List (MatrixElementComparisonFailure T E) :=
  (rowMajorPairs x.rows x.cols).filterMap (denseSpecFun cmp x y)

/-- Helper: the row-major linear index stays inside a full data vector. -/
theorem rowMajorIndexBound {i j r c : Nat} (hi : i < r) (hj : j < c) :
    i * c + j < r * c := by
  have h1 : i * c + j < (i + 1) * c := by
    rw [Nat.succ_mul]
    omega
  exact Nat.lt_of_lt_of_le h1 (Nat.mul_le_mul_right c hi)

/-- Helper: fetching inside the declared shape of a well-formed dense matrix
returns an element of its data vector. -/
theorem fetch_single_eq_some {T : Type} {m : DenseMatrix T} (hwf : m.wf)
    {i j : Nat} (hi : i < m.rows) (hj : j < m.cols) :
    ∃ a, m.fetch_single i j = some a ∧ a ∈ m.data := by
  have hlt : i * m.cols + j < m.data.length := by
    rw [hwf]
    exact rowMajorIndexBound hi hj
  refine ⟨m.data.get ⟨i * m.cols + j, hlt⟩, ?_, List.get_mem _ _ _⟩
  exact List.get?_eq_get hlt

/-- Helper: membership in the row-major coordinate enumeration. -/
theorem mem_rowMajorPairs {r c : Nat} {p : Nat × Nat} :
    p ∈ rowMajorPairs r c ↔ p.1 < r ∧ p.2 < c := by
  unfold rowMajorPairs
  simp only [List.mem_flatMap, List.mem_map, List.mem_range]
  constructor
  · rintro ⟨i, hi, j, hj, rfl⟩
    exact ⟨hi, hj⟩
  · rintro ⟨h1, h2⟩
    exact ⟨p.1, h1, p.2, h2, rfl⟩

/-- Helper: on well-formed equal-shape dense operands the loop of
`fetch_dense_dense_mismatches` returns, and its collected list is exactly the
declarative row-major filter. -/
theorem collectDenseDense_eq {T E : Type} (cmp : T → T → Except E Unit)
    (x y : DenseMatrix T) (hx : x.wf) (hy : y.wf) (hr : x.rows = y.rows)
    (hc : x.cols = y.cols) (ps : List (Nat × Nat))
    (hps : ∀ p ∈ ps, p.1 < x.rows ∧ p.2 < x.cols) :
    collectDenseDense cmp x y ps = some (ps.filterMap (denseSpecFun cmp x y)) := by
  induction ps with
  | nil => rfl
  | cons p rest ih =>
    obtain ⟨i, j⟩ := p
    have hb := hps (i, j) (List.mem_cons_self _ _)
    obtain ⟨a, ha, _⟩ := fetch_single_eq_some hx hb.1 hb.2
    obtain ⟨b, hbf, _⟩ := fetch_single_eq_some hy (hr ▸ hb.1) (hc ▸ hb.2)
    have ihr := ih (fun q hq => hps q (List.mem_cons_of_mem _ hq))
    unfold collectDenseDense
    rw [ha, hbf, ihr]
    cases hcab : cmp a b with
    | ok v => simp [List.filterMap_cons, denseSpecFun, ha, hbf, hcab]
    | error e => simp [List.filterMap_cons, denseSpecFun, ha, hbf, hcab]

/-- Helper: the dense-sparse loop returns whenever the dense side is
well-formed and the coordinates stay in its shape. -/
theorem collectDenseSparse_total {T E : Type} (cmp : T → T → Except E Unit)
    (zero : T) (x : DenseMatrix T) (m : List (Coordinate × T)) (hx : x.wf)
    (ps : List (Nat × Nat)) (hps : ∀ p ∈ ps, p.1 < x.rows ∧ p.2 < x.cols) :
    ∃ L, collectDenseSparse cmp zero x m ps = some L := by
  induction ps with
  | nil => exact ⟨[], rfl⟩
  | cons p rest ih =>
    obtain ⟨i, j⟩ := p
    have hb := hps (i, j) (List.mem_cons_self _ _)
    obtain ⟨a, ha, _⟩ := fetch_single_eq_some hx hb.1 hb.2
    obtain ⟨L, hL⟩ := ih (fun q hq => hps q (List.mem_cons_of_mem _ hq))
    unfold collectDenseSparse
    rw [ha, hL]
    dsimp only
    cases cmp a ((mapLookup m (i, j)).getD zero) with
    | ok v => exact ⟨L, rfl⟩
    | error e => exact ⟨_, rfl⟩

/-- Helper: the sparse-dense loop returns whenever the dense side is
well-formed and the coordinates stay in its shape. -/
theorem collectSparseDense_total {T E : Type} (cmp : T → T → Except E Unit)
    (zero : T) (m : List (Coordinate × T)) (y : DenseMatrix T) (hy : y.wf)
    (ps : List (Nat × Nat)) (hps : ∀ p ∈ ps, p.1 < y.rows ∧ p.2 < y.cols) :
    ∃ L, collectSparseDense cmp zero m y ps = some L := by
  induction ps with
  | nil => exact ⟨[], rfl⟩
  | cons p rest ih =>
    obtain ⟨i, j⟩ := p
    have hb := hps (i, j) (List.mem_cons_self _ _)
    obtain ⟨b, hbf, _⟩ := fetch_single_eq_some hy hb.1 hb.2
    obtain ⟨L, hL⟩ := ih (fun q hq => hps q (List.mem_cons_of_mem _ hq))
    unfold collectSparseDense
    rw [hbf, hL]
    dsimp only
    cases cmp ((mapLookup m (i, j)).getD zero) b with
    | ok v => exact ⟨L, rfl⟩
    | error e => exact ⟨_, rfl⟩

/-- C1: on well-formed operands of equal shape the engine returns a result
value for every access-mode pair (dense-dense, dense-sparse, sparse-dense,
sparse-sparse): no dense fetch is ever issued outside the declared shape and
the sparse paths are total, so nothing inside the engine fails to return. -/
theorem compare_matrices_total {T E : Type} (cmp : T → T → Except E Unit)
    (descr : String) (zero : T) (x y : MatrixOperand T)
    (hr : x.rows = y.rows) (hc : x.cols = y.cols) (hx : x.wf) (hy : y.wf) :
    (compare_matrices cmp descr zero x y).isSome = true := by
  unfold compare_matrices
  rw [if_pos ⟨hr, hc⟩]
  cases x with
  | dense dx =>
    cases y with
    | dense dy =>
      dsimp only
      unfold fetch_dense_dense_mismatches
      rw [if_pos ⟨hr, hc⟩,
        collectDenseDense_eq cmp dx dy hx hy hr hc _ (fun p hp => mem_rowMajorPairs.mp hp)]
      rfl
    | sparse sy =>
      dsimp only
      rcases hval : validateSparse sy with v | m
      · rfl
      · obtain ⟨L, hL⟩ := collectDenseSparse_total cmp zero dx m hx
          (rowMajorPairs dx.rows dx.cols) (fun p hp => mem_rowMajorPairs.mp hp)
        dsimp only
        rw [hL]
        rfl
  | sparse sx =>
    cases y with
    | dense dy =>
      dsimp only
      rcases hval : validateSparse sx with v | m
      · rfl
      · obtain ⟨L, hL⟩ := collectSparseDense_total cmp zero m dy hy
          (rowMajorPairs dy.rows dy.cols) (fun p hp => mem_rowMajorPairs.mp hp)
        dsimp only
        rw [hL]
        rfl
    | sparse sy =>
      dsimp only
      rcases hval : validateSparse sx with v | m1
      · rfl
      · rcases hval2 : validateSparse sy with v | m2 <;> rfl

/-- Witness for C1 at a concrete sparse-dense pair of equal shape. -/
theorem compare_matrices_total_witness :
    (compare_matrices (exactCompare (fun a b : Int => decide (a = b)))
      exactDescription 0
      (.sparse { rows := 1, cols := 1, triplets := [(0, 0, 3)] })
      (.dense { rows := 1, cols := 1, data := [3] })).isSome = true :=
  compare_matrices_total _ _ _ _ _ rfl rfl trivial rfl

/-- C3: on well-formed equal-shape dense operands the engine result is the
wrap of the declarative row-major mismatch list (one entry per failing
coordinate, in row-major visitation order, carrying both values and the
comparator error, with no short-circuit), and it is a success exactly when
the comparator accepts the fetched pair at every coordinate. -/
theorem compare_dense_dense_spec {T E : Type} (cmp : T → T → Except E Unit)
    (descr : String) (zero : T) (x y : DenseMatrix T)
    (hx : x.wf) (hy : y.wf) (hr : x.rows = y.rows) (hc : x.cols = y.cols) :
    (compare_matrices cmp descr zero (.dense x) (.dense y) =
      some (wrapMismatches descr (denseMismatchesSpec cmp x y)))
    ∧ (compare_matrices cmp descr zero (.dense x) (.dense y) = some (.ok ()) ↔
        ∀ i j a b, i < x.rows → j < x.cols → x.fetch_single i j = some a →
          y.fetch_single i j = some b → cmp a b = .ok ()) := by
  have heq : compare_matrices cmp descr zero (.dense x) (.dense y) =
      some (wrapMismatches descr (denseMismatchesSpec cmp x y)) := by
    unfold compare_matrices
    rw [if_pos ⟨hr, hc⟩]
    dsimp only
    unfold fetch_dense_dense_mismatches
    rw [if_pos ⟨hr, hc⟩,
      collectDenseDense_eq cmp x y hx hy hr hc _ (fun p hp => mem_rowMajorPairs.mp hp)]
    rfl
  refine ⟨heq, ?_⟩
  rw [heq]
  constructor
  · intro hok i j a b hi hj hfa hfb
    have hnil : denseMismatchesSpec cmp x y = [] := by
      by_contra hne
      unfold wrapMismatches at hok
      rw [if_neg (by simpa using hne)] at hok
      simp at hok
    have hnone := List.filterMap_eq_nil_iff.mp hnil (i, j) (mem_rowMajorPairs.mpr ⟨hi, hj⟩)
    unfold denseSpecFun at hnone
    rw [hfa, hfb] at hnone
    dsimp only at hnone
    cases hcc : cmp a b with
    | ok v =>
      cases v
      rfl
    | error e =>
      rw [hcc] at hnone
      simp at hnone
  · intro h
    have hnil : denseMismatchesSpec cmp x y = [] := by
      apply List.filterMap_eq_nil_iff.mpr
      intro p hp
      obtain ⟨hi, hj⟩ := mem_rowMajorPairs.mp hp
      obtain ⟨a, ha, _⟩ := fetch_single_eq_some hx hi hj
      obtain ⟨b, hb, _⟩ := fetch_single_eq_some hy (hr ▸ hi) (hc ▸ hj)
      unfold denseSpecFun
      rw [ha, hb]
      dsimp only
      rw [h p.1 p.2 a b hi hj ha hb]
    rw [hnil]
    rfl

/-- Witness for C3 at the concrete scenario of the spec: exact comparison of
two 2 by 3 dense matrices with three mismatching coordinates, reported in
row-major order. -/
theorem compare_dense_dense_spec_witness :
    compare_matrices (exactCompare (fun a b : Int => decide (a = b)))
      exactDescription 0
      (.dense { rows := 2, cols := 3, data := [1, 2, 3, 4, 5, 6] })
      (.dense { rows := 2, cols := 3, data := [1, 2, 9, 5, 4, 6] }) =
      some (.error (.MismatchedElements
        { comparator_description := exactDescription
          mismatches :=
            [{ x := 3, y := 9, error := {}, row := 0, col := 2 },
             { x := 4, y := 5, error := {}, row := 1, col := 0 },
             { x := 5, y := 4, error := {}, row := 1, col := 1 }] })) := by
  rw [(compare_dense_dense_spec (exactCompare (fun a b : Int => decide (a = b)))
    exactDescription 0
    { rows := 2, cols := 3, data := [1, 2, 3, 4, 5, 6] }
    { rows := 2, cols := 3, data := [1, 2, 9, 5, 4, 6] }
    rfl rfl rfl rfl).1]
  rfl

/-- C2: for all matrices whose shapes differ, whatever the comparator, the
zero element and the access modes, `compare_matrices` returns the
`MismatchedDimensions` failure with the left shape as `dim_x` and the right
shape as `dim_y`.  The result is the same for every element content of the
two operands, so no element is accessed on this path. -/
theorem compare_matrices_mismatched_dimensions {T E : Type}
    (cmp : T → T → Except E Unit) (descr : String) (zero : T)
    (x y : MatrixOperand T) (h : x.rows ≠ y.rows ∨ x.cols ≠ y.cols) :
    compare_matrices cmp descr zero x y =
      some (.error (.MismatchedDimensions
        { dim_x := (x.rows, x.cols), dim_y := (y.rows, y.cols) })) := by
  have hne : ¬(x.rows = y.rows ∧ x.cols = y.cols) := by tauto
  unfold compare_matrices
  rw [if_neg hne]

/-- Witness for C2 at a concrete shape-mismatched pair. -/
theorem compare_matrices_mismatched_dimensions_witness :
    compare_matrices (exactCompare (fun a b : Int => decide (a = b)))
      exactDescription 0
      (.dense { rows := 2, cols := 3, data := [1, 2, 3, 4, 5, 6] })
      (.dense { rows := 2, cols := 2, data := [1, 2, 3, 4] }) =
      some (.error (.MismatchedDimensions { dim_x := (2, 3), dim_y := (2, 2) })) :=
  compare_matrices_mismatched_dimensions _ _ _ _ _ (Or.inr (by decide))

/-- C5: evaluation of the transcribed `MatrixComparisonFailure::reverse` at a
`DuplicateSparseEntry` value.  The source maps the variant to
`SparseEntryOutOfBounds`, so `reverse` neither preserves the variant nor is
an involution, contradicting its own doc comment, which promises only an
interchange of the x and y roles. -/
theorem reverse_changes_duplicate_variant :
    (MatrixComparisonFailure.reverse (T := Int) (E := ExactError)
        (.DuplicateSparseEntry (.Left (1, 0))) =
      .SparseEntryOutOfBounds (.Right (1, 0)))
    ∧ (MatrixComparisonFailure.reverse (MatrixComparisonFailure.reverse
          (T := Int) (E := ExactError) (.DuplicateSparseEntry (.Left (1, 0)))) ≠
        .DuplicateSparseEntry (.Left (1, 0))) := by
  exact ⟨rfl, by decide⟩

/-- C7: the absolute comparator accepts exactly the pairs whose distance is
at most the tolerance, inclusively, and reports the distance as the error
payload.  On a signed type the distance agrees with the absolute difference
and with `max - min`; on an unsigned type, where plain subtraction truncates,
the branch on `a > b` still computes `max - min`. -/
theorem absolute_compare_characterisation :
    (∀ tol a b : Int, 0 ≤ tol →
      AbsoluteElementwiseComparator.compare intOps { tol := tol } a b =
        some (if |a - b| ≤ tol then .ok () else .error { error := |a - b| })
      ∧ |a - b| = max a b - min a b)
    ∧ (∀ tol a b : Nat,
      AbsoluteElementwiseComparator.compare natOps { tol := tol } a b =
        some (if max a b - min a b ≤ tol then .ok ()
          else .error { error := max a b - min a b })) := by
  constructor
  · intro tol a b htol
    have habs : |a - b| = if b < a then a - b else b - a := by
      split_ifs with h
      · exact abs_of_pos (by omega)
      · rw [abs_sub_comm]
        exact abs_of_nonneg (by omega)
    constructor
    · unfold AbsoluteElementwiseComparator.compare intOps
      simp only [decide_eq_true_eq]
      rw [if_pos htol, habs]
      congr 1
      split_ifs with h1 h2 h3 h2 h3 <;>
        first
        | rfl
        | (exfalso; omega)
        | (simp only [AbsoluteError.mk.injEq]; omega)
        | (simp only [Except.error.injEq, AbsoluteError.mk.injEq]; omega)
    · rw [habs]
      rcases le_total a b with h | h
      · rw [max_eq_right h, min_eq_left h]
        split_ifs with hlt
        · omega
        · rfl
      · rw [max_eq_left h, min_eq_right h]
        split_ifs with hlt
        · rfl
        · omega
  · intro tol a b
    unfold AbsoluteElementwiseComparator.compare natOps
    simp only [decide_eq_true_eq]
    rw [if_pos (Nat.zero_le tol)]
    congr 1
    split_ifs with h1 h2 h3 h2 h3 <;>
      first
      | rfl
      | (exfalso; omega)
      | (simp only [AbsoluteError.mk.injEq]; omega)
      | (simp only [Except.error.injEq, AbsoluteError.mk.injEq]; omega)

/-- Witness for C7: tolerance 2 accepts distance 2 on `Int` and rejects
distance 3 on `Nat`, with the distance as payload. -/
theorem absolute_compare_characterisation_witness :
    (AbsoluteElementwiseComparator.compare intOps { tol := 2 } (-1) 1 =
        some (if |(-1 : Int) - 1| ≤ 2 then .ok ()
          else .error { error := |(-1 : Int) - 1| }))
    ∧ (AbsoluteElementwiseComparator.compare natOps { tol := 2 } 1 4 =
        some (if max 1 4 - min 1 4 ≤ 2 then .ok ()
          else .error { error := max 1 4 - min 1 4 })) :=
  ⟨((absolute_compare_characterisation.1 2 (-1) 1 (by decide)).1),
    absolute_compare_characterisation.2 2 1 4⟩

/-- C10: the tolerance assertion of the absolute comparator.  Whenever
`zero <= tol` holds the comparison returns a value for every input pair, and
whenever it does not (a negative tolerance, or an unordered one such as NaN)
the comparison returns on no input pair, independently of the operands. -/
theorem absolute_compare_assert {T : Type} (ops : ScalarOps T)
    (c : AbsoluteElementwiseComparator T) (a b : T) :
    (ops.le ops.zero c.tol = true →
      (AbsoluteElementwiseComparator.compare ops c a b).isSome = true)
    ∧ (ops.le ops.zero c.tol = false →
      AbsoluteElementwiseComparator.compare ops c a b = none) := by
  unfold AbsoluteElementwiseComparator.compare
  constructor
  · intro h
    rw [if_pos h]
    rfl
  · intro h
    rw [if_neg (by simp [h])]

/-- Witness for C10 on `Int`: tolerance 1 returns, tolerance -1 does not. -/
theorem absolute_compare_assert_witness :
    ((AbsoluteElementwiseComparator.compare intOps { tol := 1 } 5 7).isSome = true)
    ∧ (AbsoluteElementwiseComparator.compare intOps { tol := -1 } 5 7 = none) :=
  ⟨(absolute_compare_assert intOps { tol := 1 } 5 7).1 (by decide),
    (absolute_compare_assert intOps { tol := -1 } 5 7).2 (by decide)⟩

/-- Coordinate of a triplet. -/
def tripletCoord {T : Type} (t : Nat × Nat × T) : Coordinate := (t.1, t.2.1)

/-- Map entry produced by a triplet. -/
def tripletEntry {T : Type} (t : Nat × Nat × T) : Coordinate × T := ((t.1, t.2.1), t.2.2)

/-- Helper: a violation-free prefix of the triplet sequence is folded into
the accumulating coordinate map without raising an error. -/
theorem buildSparseMap_clean_run {T : Type} (rows cols : Nat)
    (pre : List (Nat × Nat × T)) :
    ∀ (acc : List (Coordinate × T)) (l : List (Nat × Nat × T)),
      (∀ t ∈ pre, t.1 < rows ∧ t.2.1 < cols) →
      (pre.map tripletCoord).Nodup →
      (∀ t ∈ pre, acc.any (fun e => decide (e.1 = tripletCoord t)) = false) →
      buildSparseMap rows cols (pre ++ l) acc =
        buildSparseMap rows cols l (acc ++ pre.map tripletEntry) := by
  induction pre with
  | nil =>
    intro acc l _ _ _
    simp
  | cons t ts ih =>
    intro acc l hb hnd hacc
    obtain ⟨i, j, v⟩ := t
    have hbt := hb (i, j, v) (List.mem_cons_self _ _)
    have hnd2 := List.nodup_cons.mp hnd
    show buildSparseMap rows cols ((i, j, v) :: (ts ++ l)) acc = _
    rw [show buildSparseMap rows cols ((i, j, v) :: (ts ++ l)) acc =
        (if rows ≤ i ∨ cols ≤ j then .error (.outOfBounds (i, j))
          else if acc.any (fun e => decide (e.1 = (i, j))) then .error (.duplicate (i, j))
          else buildSparseMap rows cols (ts ++ l) (acc ++ [((i, j), v)])) from rfl]
    rw [if_neg (by push_neg; exact ⟨hbt.1, hbt.2⟩)]
    have h2 : acc.any (fun e => decide (e.1 = (i, j))) = false :=
      hacc (i, j, v) (List.mem_cons_self _ _)
    rw [if_neg (by rw [h2]; exact Bool.false_ne_true)]
    rw [ih (acc ++ [((i, j), v)]) l (fun q hq => hb q (List.mem_cons_of_mem _ hq))
      hnd2.2 ?_]
    · simp [tripletEntry]
    · intro q hq
      rw [List.any_append]
      have hq1 : acc.any (fun e => decide (e.1 = tripletCoord q)) = false :=
        hacc q (List.mem_cons_of_mem _ hq)
      have hq2 : tripletCoord (i, j, v) ≠ tripletCoord q := by
        intro hcontra
        exact hnd2.1 (hcontra ▸ List.mem_map_of_mem tripletCoord hq)
      simp only [hq1, List.any_cons, List.any_nil, Bool.false_or, Bool.or_false]
      simpa using fun hcontra => hq2 (by simp [tripletCoord, hcontra])

/-- Helper: a sparse operand whose triplets are in bounds and coordinatewise
distinct validates successfully into the map of its triplet entries. -/
theorem validateSparse_ok_of_valid {T : Type} (s : SparseMatrix T)
    (hb : ∀ t ∈ s.triplets, t.1 < s.rows ∧ t.2.1 < s.cols)
    (hnd : (s.triplets.map tripletCoord).Nodup) :
    validateSparse s = .ok (s.triplets.map tripletEntry) := by
  unfold validateSparse
  have h := buildSparseMap_clean_run s.rows s.cols s.triplets [] [] hb hnd
    (fun t _ => rfl)
  rw [List.append_nil] at h
  rw [h]
  rfl

/-- Helper: a clean prefix followed by an out-of-bounds triplet makes the
validator report that triplet as out of bounds, whatever follows and whether
or not its coordinate also duplicates an earlier one. -/
theorem buildSparseMap_first_oob {T : Type} (rows cols : Nat)
    (pre rest : List (Nat × Nat × T)) (i j : Nat) (v : T)
    (hb : ∀ t ∈ pre, t.1 < rows ∧ t.2.1 < cols)
    (hnd : (pre.map tripletCoord).Nodup)
    (hoob : rows ≤ i ∨ cols ≤ j) :
    buildSparseMap rows cols (pre ++ (i, j, v) :: rest) [] =
      .error (.outOfBounds (i, j)) := by
  rw [buildSparseMap_clean_run rows cols pre [] _ hb hnd (fun t _ => rfl)]
  unfold buildSparseMap
  rw [if_pos hoob]

/-- Helper: a clean prefix followed by an in-bounds triplet whose coordinate
repeats one of the prefix makes the validator report a duplicate. -/
theorem buildSparseMap_first_dup {T : Type} (rows cols : Nat)
    (pre rest : List (Nat × Nat × T)) (i j : Nat) (v : T)
    (hb : ∀ t ∈ pre, t.1 < rows ∧ t.2.1 < cols)
    (hnd : (pre.map tripletCoord).Nodup)
    (hi : i < rows) (hj : j < cols) (hmem : (i, j) ∈ pre.map tripletCoord) :
    buildSparseMap rows cols (pre ++ (i, j, v) :: rest) [] =
      .error (.duplicate (i, j)) := by
  rw [buildSparseMap_clean_run rows cols pre [] _ hb hnd (fun t _ => rfl)]
  unfold buildSparseMap
  rw [if_neg (by push_neg; exact ⟨hi, hj⟩)]
  have hany : ([] ++ pre.map tripletEntry).any (fun e => decide (e.1 = (i, j))) = true := by
    obtain ⟨t, ht, hco⟩ := List.mem_map.mp hmem
    apply List.any_eq_true.mpr
    exact ⟨tripletEntry t, by simp [List.mem_map_of_mem tripletEntry ht], by simp [tripletEntry, tripletCoord] at hco ⊢; exact hco⟩
  rw [if_pos hany]

/-- C4: the concrete scenario of the spec, evaluated through the engine: the
left sparse operand with triplets `(5,0,2), (1,0,2)` over a declared 3 by 3
shape against an empty sparse operand yields `SparseEntryOutOfBounds` tagged
`Left` at coordinate `(5,0)`.  In general triplets are validated in source
order and the first violation wins: after a violation-free prefix, an
out-of-bounds triplet is reported as out of bounds (its bounds check runs
before any duplicate check), and an in-bounds triplet repeating a prefix
coordinate is reported as a duplicate. -/
theorem sparse_validation_first_violation :
    (compare_matrices (exactCompare (fun a b : Int => decide (a = b)))
        exactDescription 0
        (.sparse { rows := 3, cols := 3, triplets := [(5, 0, 2), (1, 0, 2)] })
        (.sparse { rows := 3, cols := 3, triplets := [] }) =
      some (.error (.SparseEntryOutOfBounds (.Left (5, 0)))))
    ∧ (∀ (T : Type) (s : SparseMatrix T) (pre rest : List (Nat × Nat × T))
        (i j : Nat) (v : T),
        s.triplets = pre ++ (i, j, v) :: rest →
        (∀ t ∈ pre, t.1 < s.rows ∧ t.2.1 < s.cols) →
        (pre.map tripletCoord).Nodup →
        (s.rows ≤ i ∨ s.cols ≤ j) →
        validateSparse s = .error (.outOfBounds (i, j)))
    ∧ (∀ (T : Type) (s : SparseMatrix T) (pre rest : List (Nat × Nat × T))
        (i j : Nat) (v : T),
        s.triplets = pre ++ (i, j, v) :: rest →
        (∀ t ∈ pre, t.1 < s.rows ∧ t.2.1 < s.cols) →
        (pre.map tripletCoord).Nodup →
        i < s.rows → j < s.cols → (i, j) ∈ pre.map tripletCoord →
        validateSparse s = .error (.duplicate (i, j))) := by
  refine ⟨rfl, ?_, ?_⟩
  · intro T s pre rest i j v hts hb hnd hoob
    unfold validateSparse
    rw [hts]
    exact buildSparseMap_first_oob s.rows s.cols pre rest i j v hb hnd hoob
  · intro T s pre rest i j v hts hb hnd hi hj hmem
    unfold validateSparse
    rw [hts]
    exact buildSparseMap_first_dup s.rows s.cols pre rest i j v hb hnd hi hj hmem

/-- Witness for C4: the general conjuncts applied to concrete triplet lists
with a clean one-triplet prefix. -/
theorem sparse_validation_first_violation_witness :
    validateSparse { rows := 3, cols := 3, triplets := [(1, 0, (2 : Int)), (5, 0, 2)] } =
      .error (.outOfBounds (5, 0))
    ∧ validateSparse { rows := 3, cols := 3, triplets := [(1, 0, (2 : Int)), (1, 0, 7)] } =
      .error (.duplicate (1, 0)) :=
  ⟨sparse_validation_first_violation.2.1 Int _ [(1, 0, 2)] [] 5 0 2 rfl
      (by decide) (by decide) (by decide),
    sparse_validation_first_violation.2.2 Int _ [(1, 0, 2)] [] 1 0 7 rfl
      (by decide) (by decide) (by decide) (by decide) (by decide)⟩

/-- Scalar values reachable when an operand is compared against itself: the
dense data vector, or the zero default together with the sparse triplet
values. -/
def contentList {T : Type} (zero : T) : MatrixOperand T → List T
  | .dense m => m.data
  | .sparse s => zero :: s.triplets.map (fun t => t.2.2)

/-- Structural validity of the sparse side of an operand: triplets in bounds
and with pairwise distinct coordinates.  Dense operands impose nothing. -/
def operandSparseValid {T : Type} : MatrixOperand T → Prop
  | .dense _ => True
  | .sparse s => (∀ t ∈ s.triplets, t.1 < s.rows ∧ t.2.1 < s.cols) ∧
      (s.triplets.map tripletCoord).Nodup

/-- Helper: a coordinate present among the keys of a map is looked up to an
entry of the map. -/
theorem mapLookup_of_mem_keys {T : Type} (m : List (Coordinate × T))
    (c : Coordinate) (hc : c ∈ m.map Prod.fst) :
    ∃ v, mapLookup m c = some v ∧ (c, v) ∈ m := by
  unfold mapLookup
  have hex : ∃ e, e ∈ m ∧ (fun e : Coordinate × T => decide (e.1 = c)) e = true := by
    obtain ⟨e, hem, heq⟩ := List.mem_map.mp hc
    exact ⟨e, hem, by simp [heq]⟩
  obtain ⟨e, hfind⟩ := Option.isSome_iff_exists.mp (List.find?_isSome.mpr hex)
  have hpe : e.1 = c := by
    have := List.find?_some hfind
    simpa using this
  refine ⟨e.2, by rw [hfind]; rfl, ?_⟩
  have hme := List.mem_of_find?_eq_some hfind
  rw [← hpe]
  simpa using hme

/-- Helper: the union of the key set of a map with itself stays inside it. -/
theorem unionKeys_self_subset {T : Type} (m : List (Coordinate × T))
    (c : Coordinate) (hc : c ∈ unionKeys m m) : c ∈ m.map Prod.fst := by
  unfold unionKeys at hc
  rcases List.mem_append.mp hc with h | h
  · exact h
  · exact (List.mem_filter.mp h).1

/-- Helper: values of the triplet-entry map come from the triplet values. -/
theorem tripletEntry_value_mem {T : Type} (ts : List (Nat × Nat × T))
    (c : Coordinate) (v : T) (h : (c, v) ∈ ts.map tripletEntry) :
    v ∈ ts.map (fun t => t.2.2) := by
  obtain ⟨t, ht, heq⟩ := List.mem_map.mp h
  refine List.mem_map.mpr ⟨t, ht, ?_⟩
  have := congrArg Prod.snd heq
  simpa [tripletEntry] using this

/-- C6 amended: comparing an operand against itself with the exact comparator
succeeds for every dense operand whose elements are each equal to themselves,
and for every sparse operand that in addition has in-bounds, coordinatewise
distinct triplets and self-equal values and zero element.  (The original
claim fails without the self-equality condition: IEEE NaN content breaks it,
as the counterexample shows; an invalid sparse triplet would likewise turn
the result into a validation failure.) -/
theorem compare_matrices_self_exact {T : Type} (beq : T → T → Bool)
    (descr : String) (zero : T) (A : MatrixOperand T) (hwf : A.wf)
    (hval : operandSparseValid A)
    (hrefl : ∀ v ∈ contentList zero A, beq v v = true) :
    compare_matrices (exactCompare beq) descr zero A A = some (.ok ()) := by
  cases A with
  | dense m =>
    unfold compare_matrices
    rw [if_pos ⟨rfl, rfl⟩]
    dsimp only
    unfold fetch_dense_dense_mismatches
    rw [if_pos ⟨rfl, rfl⟩,
      collectDenseDense_eq (exactCompare beq) m m hwf hwf rfl rfl _
        (fun p hp => mem_rowMajorPairs.mp hp)]
    have hnil : (rowMajorPairs m.rows m.cols).filterMap
        (denseSpecFun (exactCompare beq) m m) = [] := by
      apply List.filterMap_eq_nil_iff.mpr
      intro p hp
      obtain ⟨hi, hj⟩ := mem_rowMajorPairs.mp hp
      obtain ⟨a, ha, hmem⟩ := fetch_single_eq_some hwf hi hj
      unfold denseSpecFun
      rw [ha]
      have hba : beq a a = true := hrefl a hmem
      simp [exactCompare, hba]
    rw [hnil]
    rfl
  | sparse s =>
    obtain ⟨hb, hnd⟩ := hval
    have hvok := validateSparse_ok_of_valid s hb hnd
    unfold compare_matrices
    rw [if_pos ⟨rfl, rfl⟩]
    dsimp only
    rw [hvok]
    dsimp only
    have hnil : sparseSparseMismatches (exactCompare beq) zero
        (s.triplets.map tripletEntry) (s.triplets.map tripletEntry) = [] := by
      unfold sparseSparseMismatches
      rw [List.filterMap_eq_nil_iff.mpr ?_]
      · rfl
      · intro c hc
        have hkey := unionKeys_self_subset (s.triplets.map tripletEntry) c hc
        obtain ⟨v, hlook, hmemM⟩ :=
          mapLookup_of_mem_keys (s.triplets.map tripletEntry) c hkey
        have hv := tripletEntry_value_mem s.triplets c v hmemM
        have hbv : beq v v = true := hrefl v (List.mem_cons_of_mem _ hv)
        rw [hlook]
        simp [exactCompare, hbv]
    rw [hnil]
    rfl

/-- Witness for the amended C6 at a concrete valid sparse operand. -/
theorem compare_matrices_self_exact_witness :
    compare_matrices (exactCompare (fun a b : Int => decide (a = b)))
      exactDescription 0
      (.sparse { rows := 2, cols := 2, triplets := [(0, 1, 5)] })
      (.sparse { rows := 2, cols := 2, triplets := [(0, 1, 5)] }) =
      some (.ok ()) :=
  compare_matrices_self_exact (fun a b : Int => decide (a = b)) exactDescription 0
    (.sparse { rows := 2, cols := 2, triplets := [(0, 1, 5)] }) trivial
    ⟨by decide, by decide⟩ (by decide)

/-- C6 counterexample: a dense 1 by 1 matrix holding the IEEE NaN value
compared against itself with the exact comparator does not succeed; the
engine reports the coordinate as a mismatched element, because NaN is not
exactly equal to itself. -/
theorem compare_matrices_self_exact_counterexample :
    compare_matrices (exactCompare floatBeq) exactDescription (.finite 0)
      (.dense { rows := 1, cols := 1, data := [FloatValue.nan] })
      (.dense { rows := 1, cols := 1, data := [FloatValue.nan] }) =
      some (.error (.MismatchedElements
        { comparator_description := exactDescription
          mismatches := [{ x := .nan, y := .nan, error := {}, row := 0, col := 0 }] })) :=
  rfl

/-- Helper: under a valid tolerance the absolute comparison returns a value. -/
theorem abs_compare_eq_some {T : Type} (ops : ScalarOps T)
    (c : AbsoluteElementwiseComparator T) (a b : T)
    (h : ops.le ops.zero c.tol = true) :
    ∃ z, AbsoluteElementwiseComparator.compare ops c a b = some z := by
  unfold AbsoluteElementwiseComparator.compare
  rw [if_pos h]
  exact ⟨_, rfl⟩

/-- Helper: the absolute comparison is symmetric whenever equality is
symmetric, strict order is asymmetric, and subtraction agrees on pairs that
are unordered and unequal (on a totally ordered type the last condition is
vacuous). -/
theorem abs_compare_symm {T : Type} (ops : ScalarOps T)
    (hbeq : ∀ a b, ops.beq a b = ops.beq b a)
    (hlt : ∀ a b, ops.lt a b = true → ops.lt b a = false)
    (hsub : ∀ a b, ops.beq a b = false → ops.lt a b = false → ops.lt b a = false →
      ops.sub a b = ops.sub b a)
    (c : AbsoluteElementwiseComparator T) (a b : T) :
    AbsoluteElementwiseComparator.compare ops c a b =
      AbsoluteElementwiseComparator.compare ops c b a := by
  unfold AbsoluteElementwiseComparator.compare
  by_cases htol : ops.le ops.zero c.tol = true
  · rw [if_pos htol, if_pos htol]
    rw [hbeq a b]
    by_cases hb : ops.beq b a = true
    · rw [if_pos hb, if_pos hb]
    · rw [if_neg hb, if_neg hb]
      have hdist : (if ops.lt b a then ops.sub a b else ops.sub b a) =
          (if ops.lt a b then ops.sub b a else ops.sub a b) := by
        by_cases h1 : ops.lt b a = true
        · rw [if_pos h1, if_neg (by rw [hlt b a h1]; exact Bool.false_ne_true)]
        · rw [if_neg h1]
          by_cases h2 : ops.lt a b = true
          · rw [if_pos h2]
          · rw [if_neg h2]
            have hba : ops.beq a b = false := by rw [hbeq a b]; exact Bool.eq_false_iff.mpr hb
            exact (hsub a b hba (Bool.eq_false_iff.mpr h2) (Bool.eq_false_iff.mpr h1)).symm
      rw [hdist]
  · rw [if_neg htol, if_neg htol]

/-- Helper: the ULP comparison is symmetric whenever the ULP metric is. -/
theorem ulp_compare_symm {T : Type} (ulpDiff : T → T → UlpComparisonResult)
    (hulp : ∀ a b, ulpDiff a b = ulpDiff b a) (c : UlpElementwiseComparator)
    (a b : T) :
    UlpElementwiseComparator.compare ulpDiff c a b =
      UlpElementwiseComparator.compare ulpDiff c b a := by
  unfold UlpElementwiseComparator.compare
  rw [hulp a b]

/-- C8: every stock comparator is symmetric.  The hypotheses are the
properties of the scalar operations the stock scalar types provide: equality
is symmetric, strict order is asymmetric, subtraction agrees on unordered
unequal pairs (vacuous on totally ordered types, NaN-propagation on floats),
and the ULP metric is symmetric.  Under them `compare(a, b)` and
`compare(b, a)` of the exact, absolute, ULP and combined float comparators
are equal outcomes, error content included. -/
theorem stock_comparators_symmetric {T : Type} (ops : ScalarOps T)
    (ulpDiff : T → T → UlpComparisonResult)
    (hbeq : ∀ a b, ops.beq a b = ops.beq b a)
    (hlt : ∀ a b, ops.lt a b = true → ops.lt b a = false)
    (hsub : ∀ a b, ops.beq a b = false → ops.lt a b = false → ops.lt b a = false →
      ops.sub a b = ops.sub b a)
    (hulp : ∀ a b, ulpDiff a b = ulpDiff b a)
    (a b : T) (tolA : T) (tolU : Nat) (c : FloatElementwiseComparator T) :
    exactCompare ops.beq a b = exactCompare ops.beq b a
    ∧ AbsoluteElementwiseComparator.compare ops { tol := tolA } a b =
        AbsoluteElementwiseComparator.compare ops { tol := tolA } b a
    ∧ UlpElementwiseComparator.compare ulpDiff { tol := tolU } a b =
        UlpElementwiseComparator.compare ulpDiff { tol := tolU } b a
    ∧ FloatElementwiseComparator.compare ops ulpDiff c a b =
        FloatElementwiseComparator.compare ops ulpDiff c b a := by
  refine ⟨?_, abs_compare_symm ops hbeq hlt hsub _ a b,
    ulp_compare_symm ulpDiff hulp _ a b, ?_⟩
  · unfold exactCompare
    rw [hbeq a b]
  · unfold FloatElementwiseComparator.compare
    rw [abs_compare_symm ops hbeq hlt hsub c.abs a b,
      ulp_compare_symm ulpDiff hulp c.ulp a b]

/-- Helper: equality on `Int` is symmetric. -/
theorem intOps_beq_symm : ∀ a b : Int, intOps.beq a b = intOps.beq b a := by
  intro a b
  simp only [intOps]
  exact decide_eq_decide.mpr ⟨Eq.symm, Eq.symm⟩

/-- Helper: strict order on `Int` is asymmetric. -/
theorem intOps_lt_asymm : ∀ a b : Int, intOps.lt a b = true → intOps.lt b a = false := by
  intro a b h
  simp only [intOps, decide_eq_true_eq] at h
  simp only [intOps, decide_eq_false_iff_not]
  omega

/-- Helper: `Int` is totally ordered, so the unordered-unequal case is empty. -/
theorem intOps_sub_unordered : ∀ a b : Int, intOps.beq a b = false →
    intOps.lt a b = false → intOps.lt b a = false →
    intOps.sub a b = intOps.sub b a := by
  intro a b h1 h2 h3
  exfalso
  simp only [intOps, decide_eq_false_iff_not] at h1 h2 h3
  omega

/-- Helper: the integer ULP metric is symmetric. -/
theorem intUlpDiff_symm : ∀ a b : Int, intUlpDiff a b = intUlpDiff b a := by
  intro a b
  unfold intUlpDiff
  by_cases h : a = b
  · subst h
    rfl
  · rw [if_neg h, if_neg (fun hba => h hba.symm)]
    have : (a - b).natAbs = (b - a).natAbs := by omega
    rw [this]

/-- Witness for C8: all four stock comparators agree under argument swap at a
concrete integer pair. -/
theorem stock_comparators_symmetric_witness :
    exactCompare intOps.beq 3 (-4) = exactCompare intOps.beq (-4) 3
    ∧ AbsoluteElementwiseComparator.compare intOps { tol := 2 } 3 (-4) =
        AbsoluteElementwiseComparator.compare intOps { tol := 2 } (-4) 3
    ∧ UlpElementwiseComparator.compare intUlpDiff { tol := 1 } 3 (-4) =
        UlpElementwiseComparator.compare intUlpDiff { tol := 1 } (-4) 3
    ∧ FloatElementwiseComparator.compare intOps intUlpDiff
        { abs := { tol := 2 }, ulp := { tol := 1 } } 3 (-4) =
      FloatElementwiseComparator.compare intOps intUlpDiff
        { abs := { tol := 2 }, ulp := { tol := 1 } } (-4) 3 :=
  stock_comparators_symmetric intOps intUlpDiff intOps_beq_symm intOps_lt_asymm
    intOps_sub_unordered intUlpDiff_symm 3 (-4) 2 1
    { abs := { tol := 2 }, ulp := { tol := 1 } }

/-- C9: the combined float comparator succeeds exactly when the absolute
stage or the ULP stage accepts the pair; when the absolute stage rejects, the
returned result is the result of the ULP stage, so a double failure reports
the ULP error.  The default configuration is the absolute tolerance
`(1+1+1+1) * epsilon` with ULP tolerance 4, and each builder overrides its
own threshold while leaving the other stage untouched. -/
theorem float_compare_two_stage {T : Type} (ops : ScalarOps T)
    (ulpDiff : T → T → UlpComparisonResult) (c : FloatElementwiseComparator T)
    (a b : T) (e : T) (u : Nat) :
    (ops.le ops.zero c.abs.tol = true →
      ((FloatElementwiseComparator.compare ops ulpDiff c a b = some (.ok ()) ↔
          (AbsoluteElementwiseComparator.compare ops c.abs a b = some (.ok ()) ∨
            UlpElementwiseComparator.compare ulpDiff c.ulp a b = .ok ()))
        ∧ (AbsoluteElementwiseComparator.compare ops c.abs a b ≠ some (.ok ()) →
            FloatElementwiseComparator.compare ops ulpDiff c a b =
              some (UlpElementwiseComparator.compare ulpDiff c.ulp a b))))
    ∧ ((FloatElementwiseComparator.default ops).abs.tol =
          ops.mul (ops.add (ops.add (ops.add ops.one ops.one) ops.one) ops.one) ops.epsilon
        ∧ (FloatElementwiseComparator.default ops).ulp.tol = 4)
    ∧ ((c.withEps e).abs.tol = e ∧ (c.withEps e).ulp = c.ulp
        ∧ (c.withUlp u).ulp.tol = u ∧ (c.withUlp u).abs = c.abs) := by
  refine ⟨?_, ⟨rfl, rfl⟩, rfl, rfl, rfl, rfl⟩
  intro htol
  obtain ⟨z, hz⟩ := abs_compare_eq_some ops c.abs a b htol
  unfold FloatElementwiseComparator.compare
  rw [hz]
  cases z with
  | ok v =>
    cases v
    exact ⟨⟨fun _ => Or.inl rfl, fun _ => rfl⟩, fun hne => absurd rfl hne⟩
  | error w =>
    refine ⟨⟨fun hok => Or.inr (Option.some.inj hok), fun hor => ?_⟩, fun _ => rfl⟩
    rcases hor with hl | hr
    · exact absurd (Option.some.inj hl) (fun hx => Except.noConfusion hx)
    · exact congrArg some hr

/-- Witness for C9: with the default integer configuration the pair `(0, 3)`
is rejected by the absolute stage but accepted by the ULP stage, so the
combined comparator succeeds. -/
theorem float_compare_two_stage_witness :
    FloatElementwiseComparator.compare intOps intUlpDiff
      (FloatElementwiseComparator.default intOps) 0 3 = some (.ok ()) :=
  (((float_compare_two_stage intOps intUlpDiff
      (FloatElementwiseComparator.default intOps) 0 3 5 7).1 rfl).1).mpr
    (Or.inr rfl)

end Matrixcompare
